import Mathlib

/-!
Verification of `memtools` (single-header x64 memory tools: pattern scanning,
verification and navigation) against its natural-language specification.

The development shallowly embeds the two scan variants of the repository:
`PatternScan` from `src/memtools.h` and the older `DataScan` from the unnamed
source file (`src/unnamed/part_000`, itself a `memtools.h` revision).
Machine integers are modelled as `Nat`/`Int`; process memory is a total
function `Int → UInt8` (the "unchecked pointer arithmetic over the process's
own address space" of the design notes); code whose C++ behaviour is
undefined (out-of-bounds array reads, `std::vector::back` on an empty vector,
`memcpy` from a null pointer) is modelled by an explicit undefined-behaviour
result, kept distinct from the verification-failure control signal.
-/

namespace memtools

/-! ## Constants (from the `#define`s in `memtools.h` and `windows.h`) -/

def MAX_PATTERN_LENGTH : Nat := 128

def MAX_INSTRUCTION_LENGTH : Nat := 16

def CHAR_0 : Nat := 0x30

def CHAR_9 : Nat := 0x39

def CHAR_A : Nat := 0x41

def CHAR_F : Nat := 0x46

def HEXVAL_A : Nat := 10

def HEXPOW_1 : Nat := 0x01

def HEXPOW_2 : Nat := 0x10

/-- `windows.h`: `MEM_COMMIT`. -/
def MEM_COMMIT : Nat := 0x1000

/-- `windows.h`: `PAGE_READONLY`. -/
def PAGE_READONLY : Nat := 0x02

/-- `windows.h`: `PAGE_READWRITE`. -/
def PAGE_READWRITE : Nat := 0x04

/-- `windows.h`: `PAGE_EXECUTE_READ`. -/
def PAGE_EXECUTE_READ : Nat := 0x20

/-- `windows.h`: `PAGE_EXECUTE_READWRITE`. -/
def PAGE_EXECUTE_READWRITE : Nat := 0x40

/-! ## The `Byte` struct and the pattern compiler (`Pattern::Pattern`) -/

/-- `struct Byte { bool IsWildcard = false; uint8_t Value = 0; }`. -/
structure Byte where
  IsWildcard : Bool := false
  Value      : UInt8 := 0
deriving DecidableEq, Repr

/-- A compiled pattern: the first `Size` entries of the `Bytes` array of
`struct Pattern` (entries past `Size` stay default-initialised and are never
read by the matcher). `Size` is the list length. -/
abbrev PatternBytes := List Byte

/-- `throw "Invalid hexadecimal."` in `Pattern::Pattern`. -/
inductive ParseError where
  | invalidCharacter
deriving DecidableEq, Repr

/-- The hex-digit test of `Pattern::Pattern`:
`(c >= CHAR_0 && c <= CHAR_9) || (c >= CHAR_A && c <= CHAR_F)`
(uppercase `0-9A-F` only). -/
def isHexU (c : Char) : Bool :=
  (CHAR_0 ≤ c.toNat && c.toNat ≤ CHAR_9) || (CHAR_A ≤ c.toNat && c.toNat ≤ CHAR_F)

/-- Digit value as computed in `Pattern::Pattern`:
`c <= CHAR_9 ? c - CHAR_0 : (c - CHAR_A) + HEXVAL_A`. -/
def hexVal (c : Char) : Nat :=
  if c.toNat ≤ CHAR_9 then c.toNat - CHAR_0 else (c.toNat - CHAR_A) + HEXVAL_A

/-- The parsing loop of `Pattern::Pattern` (`src/memtools.h` lines 124-211).
The accumulator is the list of `Byte`s written so far (`Size` = its length).
The C++ loop reads `aPattern[i + 1]` where `aPattern` is NUL-terminated; at
the end of the text that read yields `'\0'`, which is neither `'?'` nor a
hex digit — hence the separate one-character-left case below (the lookahead
branches behave as their not-`'?'` / not-hex arms there).  The capacity
check sits at the top of each iteration and `break`s (returning what was
parsed so far) once `Size >= MAX_PATTERN_LENGTH`. -/
def parseLoop : List Char → PatternBytes → Except ParseError PatternBytes
  | [], acc => .ok acc
  | [c], acc =>
    if MAX_PATTERN_LENGTH ≤ acc.length then .ok acc
    else if c = ' ' then parseLoop [] acc
    else if c = '<' then parseLoop [] acc
    else if c = '>' then parseLoop [] acc
    else if c = '?' then parseLoop [] (acc ++ [{ IsWildcard := true }])
    else if isHexU c then
      parseLoop []
        (acc ++ [{ IsWildcard := false, Value := UInt8.ofNat (hexVal c * HEXPOW_1) }])
    else .error .invalidCharacter
  | c :: d :: rest, acc =>
    if MAX_PATTERN_LENGTH ≤ acc.length then .ok acc
    else if c = ' ' then parseLoop (d :: rest) acc
    else if c = '<' then parseLoop (d :: rest) acc
    else if c = '>' then parseLoop (d :: rest) acc
    else if c = '?' then
      if d = '?' then parseLoop rest (acc ++ [{ IsWildcard := true }])
      else parseLoop (d :: rest) (acc ++ [{ IsWildcard := true }])
    else if isHexU c then
      if isHexU d then
        parseLoop rest
          (acc ++ [{ IsWildcard := false
                     Value := UInt8.ofNat (hexVal c * HEXPOW_2 + hexVal d * HEXPOW_1) }])
      else
        parseLoop (d :: rest)
          (acc ++ [{ IsWildcard := false, Value := UInt8.ofNat (hexVal c * HEXPOW_1) }])
    else .error .invalidCharacter

/-- `Pattern::Pattern(const char* aPattern)`: run the loop on the characters
before the NUL terminator, starting from `Size = 0`. -/
def Pattern.compile (text : List Char) : Except ParseError PatternBytes :=
  parseLoop text []

/-- The characters `Pattern::Pattern` consumes without throwing: space, the
annotation markers, wildcard marks and uppercase hex digits. -/
def validChar (c : Char) : Bool :=
  c == ' ' || c == '<' || c == '>' || c == '?' || isHexU c

/-! ## The matcher (`operator==(const Pattern&, const PBYTE)`) -/

/-- `Bytes[i]` of a compiled pattern (entries past the list are the
default-initialised array tail). -/
def byteAt (toks : PatternBytes) (i : Nat) : Byte :=
  toks.getD i {}

/-- `operator==(const Pattern& lhs, const PBYTE rhs)` (`src/memtools.h`
lines 214-225), with the window bytes read from process memory at `addr`:
every position is a wildcard or agrees with memory. The C++ early `return
false` is the failure of `List.all`. -/
def patternMatchesAt (mem : Int → UInt8) (toks : PatternBytes) (addr : Int) : Bool :=
  (List.range toks.length).all fun i =>
    (byteAt toks i).IsWildcard || ((byteAt toks i).Value == mem (addr + (i : Int)))

/-- A byte buffer laid out at address `0`, for stating the matcher examples. -/
def memOfList (l : List UInt8) : Int → UInt8 :=
  fun a => l.getD a.toNat 0

/-! ## Instructions -/

/-- `enum class EOperation` (the `memtools.h` version; the unnamed file's
older enum is the same minus `advwcard`). -/
inductive EOperation where
  | NONE
  | offset
  | follow
  | strcmp
  | wcscmp
  | cmpi8
  | cmpi16
  | cmpi32
  | cmpi64
  | pushaddr
  | popaddr
  | advwcard
deriving DecidableEq, Repr

/-- `struct Instruction`: an operation tag plus payload slots.  The narrow
and wide string payloads are the code-unit lists of the NUL-terminated
literals handed to `Strcmp`/`Wcscmp` (without the terminator; a slot unused
by the tag is never read, mirroring the null pointers). -/
structure Instruction where
  Operation : EOperation := .NONE
  Value     : Int := 0
  String    : List UInt8 := []
  WString   : List UInt16 := []
deriving DecidableEq, Repr

/-- `constexpr Instruction Offset(int64_t aValue)`. -/
def Offset (aValue : Int) : Instruction := { Operation := .offset, Value := aValue }

/-- `constexpr Instruction Follow()`. -/
def Follow : Instruction := { Operation := .follow }

/-- `constexpr Instruction Strcmp(const char* aStr)`. -/
def Strcmp (aStr : List UInt8) : Instruction := { Operation := .strcmp, String := aStr }

/-- `constexpr Instruction Wcscmp(const wchar_t* aWStr)`. -/
def Wcscmp (aWStr : List UInt16) : Instruction := { Operation := .wcscmp, WString := aWStr }

/-- `constexpr Instruction CmpI8(int64_t aValue)`. -/
def CmpI8 (aValue : Int) : Instruction := { Operation := .cmpi8, Value := aValue }

/-- `constexpr Instruction CmpI16(int64_t aValue)`. -/
def CmpI16 (aValue : Int) : Instruction := { Operation := .cmpi16, Value := aValue }

/-- `constexpr Instruction CmpI32(int64_t aValue)`. -/
def CmpI32 (aValue : Int) : Instruction := { Operation := .cmpi32, Value := aValue }

/-- `constexpr Instruction CmpI64(int64_t aValue)`. -/
def CmpI64 (aValue : Int) : Instruction := { Operation := .cmpi64, Value := aValue }

/-- `constexpr Instruction PushAddr()`. -/
def PushAddr : Instruction := { Operation := .pushaddr }

/-- `constexpr Instruction PopAddr()`. -/
def PopAddr : Instruction := { Operation := .popaddr }

/-- `constexpr Instruction AdvWcard(int64_t aSets = 1)`. -/
def AdvWcard (aSets : Int) : Instruction := { Operation := .advwcard, Value := max 1 aSets }

/-! ## Memory reads -/

/-- Little-endian read of `n` bytes at `a` as an unsigned value (x64 byte
order, as in the raw dereferences of the interpreter). -/
def readNatLE (mem : Int → UInt8) : Int → Nat → Nat
  | _, 0 => 0
  | a, n + 1 => (mem a).toNat + 256 * readNatLE mem (a + 1) n

/-- Two's-complement reinterpretation of a `w`-bit unsigned value. -/
def toSigned (v : Nat) (w : Nat) : Int :=
  if v < 2 ^ (w - 1) then (v : Int) else (v : Int) - 2 ^ w

/-- `(intN)inst.Value`: truncate a signed 64-bit payload to `w` bits. -/
def truncSigned (v : Int) (w : Nat) : Int :=
  toSigned (v % 2 ^ w).toNat w

/-- `FollowRelativeAddress(void* aAddress)`: read a (possibly unaligned)
little-endian `int32_t` at the address and return
`aAddress + jmpOffset + 4` (x64 RIP-relative convention). -/
def FollowRelativeAddress (mem : Int → UInt8) (aAddress : Int) : Int :=
  aAddress + toSigned (readNatLE mem aAddress 4) 32 + 4

/-- `strcmp((const char*)p, lit) == 0` for a NUL-free literal `lit`: the
bytes at `p` agree with `lit` and the byte after them is the terminator. -/
def cstrEqAt (mem : Int → UInt8) (p : Int) (lit : List UInt8) : Bool :=
  ((List.range lit.length).all fun k => mem (p + (k : Int)) == lit.getD k 0) &&
    (mem (p + (lit.length : Int)) == 0)

/-- Little-endian `wchar_t` (2-byte code unit) read at `a`. -/
def readU16LE (mem : Int → UInt8) (a : Int) : Nat :=
  readNatLE mem a 2

/-- `wcscmp((const wchar_t*)p, lit) == 0` for a NUL-free literal `lit`. -/
def wstrEqAt (mem : Int → UInt8) (p : Int) (lit : List UInt16) : Bool :=
  ((List.range lit.length).all fun k =>
      readU16LE mem (p + 2 * (k : Int)) == (lit.getD k 0).toNat) &&
    (readU16LE mem (p + 2 * (lit.length : Int)) == 0)

/-! ## The instruction interpreter -/

/-- Outcome of one verification attempt (the instruction loop run at a raw
match address). `failed` is the internal control signal
(`instructionsFailed != 0`, i.e. the attempt's `resultAddr` is nulled and
the byte iteration continues); `ub` marks paths whose C++ behaviour is
undefined (`std::vector::back` on an empty `addrStore`, out-of-bounds reads
of the `Bytes` array in `advwcard`). -/
inductive RunResult where
  | success : Int → RunResult
  | failed  : RunResult
  | ub      : RunResult
deriving DecidableEq, Repr

/-- The `while (offsetFromMatch < (int64_t)this->Assembly.Size)` loop inside
`advwcard`: skip the current wildcard run (if starting on one), then skip
concrete bytes until the next wildcard run starts. -/
def advLoop (toks : PatternBytes) (size off : Nat) (wasWc : Bool) : Nat :=
  if off < size then
    if wasWc && (byteAt toks off).IsWildcard then advLoop toks size (off + 1) wasWc
    else if !wasWc && (byteAt toks off).IsWildcard then off
    else advLoop toks size (off + 1) false
  else off
termination_by size - off
decreasing_by all_goals (simp_wf; omega)

/-- The `for (int64_t i = 0; i < inst.Value; i++)` loop of `advwcard`:
`iters` iterations of the run-advancing loop.  Each iteration first reads
`Bytes[offsetFromMatch]` unguarded; an offset outside the 128-entry array is
an out-of-bounds read, i.e. undefined behaviour (`none`). -/
def advwcardRun (toks : PatternBytes) (size : Nat) : Nat → Int → Option Int
  | 0, off => some off
  | iters + 1, off =>
    if off < 0 || (MAX_PATTERN_LENGTH : Int) ≤ off then none
    else
      advwcardRun toks size iters
        (advLoop toks size off.toNat (byteAt toks off.toNat).IsWildcard)

/-- The instruction loop of `PatternScan::Scan` (`src/memtools.h` lines
495-602), one verification attempt.  State: `cursor` (= `resultAddr`),
`stack` (= `addrStore`), `offM` (= `offsetFromMatch`); `matchStart` is
`base + i`, the raw match address.  A comparison that differs increments
`instructionsFailed`, which nulls `resultAddr` and stops the attempt right
after the instruction (`.failed`).  The loop body `switch` ignores `NONE`
(`default: break`), so the `Count`-to-16 tail of default-constructed
instructions in the `std::array` is a no-op. -/
def PatternScan.run (mem : Int → UInt8) (toks : PatternBytes) (matchStart : Int) :
    List Instruction → Int → List Int → Int → RunResult
  | [], cursor, _, _ => .success cursor
  | inst :: rest, cursor, stack, offM =>
    match inst.Operation with
    | .NONE => PatternScan.run mem toks matchStart rest cursor stack offM
    | .offset =>
      PatternScan.run mem toks matchStart rest (cursor + inst.Value) stack (offM + inst.Value)
    | .follow =>
      PatternScan.run mem toks matchStart rest (FollowRelativeAddress mem cursor) stack offM
    | .strcmp =>
      if cstrEqAt mem (FollowRelativeAddress mem cursor) inst.String then
        PatternScan.run mem toks matchStart rest cursor stack offM
      else .failed
    | .wcscmp =>
      if wstrEqAt mem (FollowRelativeAddress mem cursor) inst.WString then
        PatternScan.run mem toks matchStart rest cursor stack offM
      else .failed
    | .cmpi8 =>
      if toSigned (readNatLE mem cursor 1) 8 = truncSigned inst.Value 8 then
        PatternScan.run mem toks matchStart rest cursor stack offM
      else .failed
    | .cmpi16 =>
      if toSigned (readNatLE mem cursor 2) 16 = truncSigned inst.Value 16 then
        PatternScan.run mem toks matchStart rest cursor stack offM
      else .failed
    | .cmpi32 =>
      if toSigned (readNatLE mem cursor 4) 32 = truncSigned inst.Value 32 then
        PatternScan.run mem toks matchStart rest cursor stack offM
      else .failed
    | .cmpi64 =>
      if toSigned (readNatLE mem cursor 8) 64 = truncSigned inst.Value 64 then
        PatternScan.run mem toks matchStart rest cursor stack offM
      else .failed
    | .pushaddr =>
      PatternScan.run mem toks matchStart rest cursor (cursor :: stack) offM
    | .popaddr =>
      match stack with
      | [] => .ub
      | a :: s => PatternScan.run mem toks matchStart rest a s offM
    | .advwcard =>
      match advwcardRun toks toks.length inst.Value.toNat offM with
      | none => .ub
      | some off2 =>
        PatternScan.run mem toks matchStart rest (matchStart + off2) stack off2

/-- The instruction loop of `DataScan::Scan` (`src/unnamed/part_000` lines
375-444).  Differences from `PatternScan.run`: there is no `advwcard` and no
`offsetFromMatch`, and `follow` adds `inst.Value` to the cursor before
following (`FollowRelativeAddress((PBYTE)resultAddr + inst.Value)`). -/
def DataScan.run (mem : Int → UInt8) :
    List Instruction → Int → List Int → RunResult
  | [], cursor, _ => .success cursor
  | inst :: rest, cursor, stack =>
    match inst.Operation with
    | .offset => DataScan.run mem rest (cursor + inst.Value) stack
    | .follow =>
      DataScan.run mem rest (FollowRelativeAddress mem (cursor + inst.Value)) stack
    | .strcmp =>
      if cstrEqAt mem (FollowRelativeAddress mem cursor) inst.String then
        DataScan.run mem rest cursor stack
      else .failed
    | .wcscmp =>
      if wstrEqAt mem (FollowRelativeAddress mem cursor) inst.WString then
        DataScan.run mem rest cursor stack
      else .failed
    | .cmpi8 =>
      if toSigned (readNatLE mem cursor 1) 8 = truncSigned inst.Value 8 then
        DataScan.run mem rest cursor stack
      else .failed
    | .cmpi16 =>
      if toSigned (readNatLE mem cursor 2) 16 = truncSigned inst.Value 16 then
        DataScan.run mem rest cursor stack
      else .failed
    | .cmpi32 =>
      if toSigned (readNatLE mem cursor 4) 32 = truncSigned inst.Value 32 then
        DataScan.run mem rest cursor stack
      else .failed
    | .cmpi64 =>
      if toSigned (readNatLE mem cursor 8) 64 = truncSigned inst.Value 64 then
        DataScan.run mem rest cursor stack
      else .failed
    | .pushaddr => DataScan.run mem rest cursor (cursor :: stack)
    | .popaddr =>
      match stack with
      | [] => .ub
      | a :: s => DataScan.run mem rest a s
    | _ => DataScan.run mem rest cursor stack

/-- The `PatternScan` constructor's instruction storage: a
`std::array<Instruction, MAX_INSTRUCTION_LENGTH>` aggregate-initialised from
the given instructions, the remaining entries default-constructed
(`EOperation::NONE`).  `Scan` iterates over all 16 entries. -/
def mkScanInstructions (instrs : List Instruction) : List Instruction :=
  instrs ++ List.replicate (MAX_INSTRUCTION_LENGTH - instrs.length) ({} : Instruction)

/-! ## Region walking and scan orchestration -/

/-- `MEMORY_BASIC_INFORMATION`, the fields the scans read. -/
structure MBI where
  BaseAddress : Int
  RegionSize  : Nat
  State       : Nat
  Protect     : Nat
deriving DecidableEq, Repr

/-- Overall result of a scan: the returned pointer (`found`, non-null) or
`nullptr` (`notFound`); `ub` propagates an undefined-behaviour attempt. -/
inductive ScanOutcome where
  | found : Int → ScanOutcome
  | notFound : ScanOutcome
  | ub : ScanOutcome
deriving DecidableEq, Repr

/-- The candidate loop of `PatternScan::Scan` over one accepted region
(`for (uint64_t i = 0; i < end; i++)` at `src/memtools.h` lines 468-610),
`offsets` being the remaining candidate offsets: at each offset where the
pattern matches, the instruction loop runs from the raw match address
`base + i` with an empty `addrStore` and `offsetFromMatch = 0`; on failure
the byte iteration continues, on success `resultAddr` is returned. -/
def PatternScan.scanOffsetsGo (mem : Int → UInt8) (toks : PatternBytes)
    (instrs : List Instruction) (base : Int) : List Nat → ScanOutcome
  | [] => .notFound
  | i :: offsets =>
    if patternMatchesAt mem toks (base + (i : Int)) then
      match PatternScan.run mem toks (base + (i : Int)) instrs (base + (i : Int)) [] 0 with
      | .success c => .found c
      | .failed => PatternScan.scanOffsetsGo mem toks instrs base offsets
      | .ub => .ub
    else PatternScan.scanOffsetsGo mem toks instrs base offsets

/-- One region's candidate scan: `end = mbi.RegionSize - this->Assembly.Size`
("ensure not going out of bounds"), candidate offsets `0 .. end - 1`.
(The callers only reach this once `Size ≤ RegionSize`, so the `Nat`
subtraction agrees with the `uint64_t` one.) -/
def PatternScan.scanRegion (mem : Int → UInt8) (toks : PatternBytes)
    (instrs : List Instruction) (base : Int) (regionSize : Nat) : ScanOutcome :=
  PatternScan.scanOffsetsGo mem toks instrs base (List.range (regionSize - toks.length))

/-- The region walk of `PatternScan::Scan` (`src/memtools.h` lines 439-611),
with the successive `VirtualQuery` results abstracted as the list `regions`
(the walk ends when `VirtualQuery` fails).  A region is skipped
(`continue`) when the page is smaller than the pattern, not committed, or —
in this variant — its protection is neither `PAGE_EXECUTE_READ` nor
`PAGE_EXECUTE_READWRITE`.  A successful attempt whose final `resultAddr` is
null does not satisfy the `while (resultAddr == nullptr)` exit condition, so
the walk continues. -/
def PatternScan.scanRegions (mem : Int → UInt8) (toks : PatternBytes)
    (instrs : List Instruction) : List MBI → ScanOutcome
  | [] => .notFound
  | r :: regions =>
    if toks.length > r.RegionSize then
      PatternScan.scanRegions mem toks instrs regions
    else if r.State ≠ MEM_COMMIT then
      PatternScan.scanRegions mem toks instrs regions
    else if ¬(r.Protect = PAGE_EXECUTE_READ ∨ r.Protect = PAGE_EXECUTE_READWRITE) then
      PatternScan.scanRegions mem toks instrs regions
    else
      match PatternScan.scanRegion mem toks instrs r.BaseAddress r.RegionSize with
      | .found c =>
        if c = 0 then PatternScan.scanRegions mem toks instrs regions else .found c
      | .notFound => PatternScan.scanRegions mem toks instrs regions
      | .ub => .ub

/-- `PatternScan::Scan` (without the disabled pattern-caching block): an
empty pattern returns `nullptr` at once, otherwise the region walk runs. -/
def PatternScan.Scan (mem : Int → UInt8) (toks : PatternBytes)
    (instrs : List Instruction) (regions : List MBI) : ScanOutcome :=
  if toks.length = 0 then .notFound
  else PatternScan.scanRegions mem toks instrs regions

/-- The acceptance predicate of `PatternScan::Scan`'s region checks: the
conjunction of the three `continue` tests being passed. -/
def PatternScan.regionAccepted (patSize : Nat) (r : MBI) : Bool :=
  decide (¬patSize > r.RegionSize) && decide (r.State = MEM_COMMIT) &&
    decide (r.Protect = PAGE_EXECUTE_READ ∨ r.Protect = PAGE_EXECUTE_READWRITE)

/-- The candidate loop of `DataScan::Scan` over one accepted region
(`src/unnamed/part_000` lines 362-452); as `PatternScan.scanOffsetsGo` but
with the older interpreter. -/
def DataScan.scanOffsetsGo (mem : Int → UInt8) (toks : PatternBytes)
    (instrs : List Instruction) (base : Int) : List Nat → ScanOutcome
  | [] => .notFound
  | i :: offsets =>
    if patternMatchesAt mem toks (base + (i : Int)) then
      match DataScan.run mem instrs (base + (i : Int)) [] with
      | .success c => .found c
      | .failed => DataScan.scanOffsetsGo mem toks instrs base offsets
      | .ub => .ub
    else DataScan.scanOffsetsGo mem toks instrs base offsets

/-- One region's candidate scan in `DataScan::Scan`:
`end = mbi.RegionSize - this->Assembly.Size`, offsets `0 .. end - 1`. -/
def DataScan.scanRegion (mem : Int → UInt8) (toks : PatternBytes)
    (instrs : List Instruction) (base : Int) (regionSize : Nat) : ScanOutcome :=
  DataScan.scanOffsetsGo mem toks instrs base (List.range (regionSize - toks.length))

/-- The region walk of `DataScan::Scan` (`src/unnamed/part_000` lines
324-453) over the successive `VirtualQuery` results (the module-bounded
termination is abstracted into where the list ends).  The protection test of
this variant accepts any protection with one of the `PAGE_READONLY`,
`PAGE_READWRITE`, `PAGE_EXECUTE_READ`, `PAGE_EXECUTE_READWRITE` bits set. -/
def DataScan.scanRegions (mem : Int → UInt8) (toks : PatternBytes)
    (instrs : List Instruction) : List MBI → ScanOutcome
  | [] => .notFound
  | r :: regions =>
    if toks.length > r.RegionSize then
      DataScan.scanRegions mem toks instrs regions
    else if r.State ≠ MEM_COMMIT then
      DataScan.scanRegions mem toks instrs regions
    else if ¬(r.Protect &&& PAGE_READONLY = PAGE_READONLY ∨
              r.Protect &&& PAGE_READWRITE = PAGE_READWRITE ∨
              r.Protect &&& PAGE_EXECUTE_READ = PAGE_EXECUTE_READ ∨
              r.Protect &&& PAGE_EXECUTE_READWRITE = PAGE_EXECUTE_READWRITE) then
      DataScan.scanRegions mem toks instrs regions
    else
      match DataScan.scanRegion mem toks instrs r.BaseAddress r.RegionSize with
      | .found c =>
        if c = 0 then DataScan.scanRegions mem toks instrs regions else .found c
      | .notFound => DataScan.scanRegions mem toks instrs regions
      | .ub => .ub

/-- The acceptance predicate of `DataScan::Scan`'s region checks. -/
def DataScan.regionAccepted (patSize : Nat) (r : MBI) : Bool :=
  decide (¬patSize > r.RegionSize) && decide (r.State = MEM_COMMIT) &&
    decide (r.Protect &&& PAGE_READONLY = PAGE_READONLY ∨
            r.Protect &&& PAGE_READWRITE = PAGE_READWRITE ∨
            r.Protect &&& PAGE_EXECUTE_READ = PAGE_EXECUTE_READ ∨
            r.Protect &&& PAGE_EXECUTE_READWRITE = PAGE_EXECUTE_READWRITE)

/-- Follows the spec's words, for comparison with the code's acceptance
predicates ("A region is accepted for scanning only if: committed, size ≥
pattern size, and protection permits reads (read-only, read-write,
execute-read, or execute-read-write)"). -/
def specRegionAccepted (patSize : Nat) (r : MBI) : Bool :=
  decide (r.State = MEM_COMMIT) && decide (patSize ≤ r.RegionSize) &&
    decide (r.Protect = PAGE_READONLY ∨ r.Protect = PAGE_READWRITE ∨
            r.Protect = PAGE_EXECUTE_READ ∨ r.Protect = PAGE_EXECUTE_READWRITE)

/-! ## The `Patch` struct -/

/-- `throw` reasons of the `Patch` constructor. -/
inductive PatchError where
  | NullTarget
  | NullBytes
  | EmptyBytes
deriving DecidableEq, Repr

/-- `struct Patch`: target address, the exclusively owned snapshot buffer
(`nullptr` when the constructor's `VirtualProtect` failed), byte count. -/
structure PatchRecord where
  Target        : Int
  OriginalBytes : Option (List UInt8)
  Size          : Nat
deriving DecidableEq, Repr

/-- `strlen(aBytes)` with `aBytes` modelled as the byte buffer at the
pointer (assumed to contain its NUL terminator): the byte count before the
first zero byte. -/
def strlenBytes (bs : List UInt8) : Nat :=
  (bs.takeWhile (· ≠ 0)).length

/-- `memcpy(t, src, n)` over the memory model: the `n` bytes at `t` now come
from `src`, everything else is untouched. -/
def copyBytes (mem : Int → UInt8) (t : Int) (src : List UInt8) (n : Nat) : Int → UInt8 :=
  fun a => if t ≤ a ∧ a < t + (n : Int) then src.getD (a - t).toNat 0 else mem a

/-- The original bytes captured by the constructor:
`memcpy(this->OriginalBytes, aTarget, this->Size)`. -/
def snapshotBytes (mem : Int → UInt8) (t : Int) (n : Nat) : List UInt8 :=
  (List.range n).map fun (k : Nat) => mem (t + (k : Int))

/-- `Patch::Patch(void* aTarget, const char* aBytes)` (`src/memtools.h`
lines 668-693).  `aTarget = 0` models the null pointer; `aBytes = none`
models a null `aBytes`; `protectOk` is whether `VirtualProtect` succeeds (on
failure the constructor silently performs no modification and leaves
`OriginalBytes` null).  On success it returns the record and the memory
after `memcpy(aTarget, aBytes, Size)`. -/
def Patch.construct (mem : Int → UInt8) (aTarget : Int) (aBytes : Option (List UInt8))
    (protectOk : Bool) : Except PatchError (PatchRecord × (Int → UInt8)) :=
  if aTarget = 0 then .error .NullTarget
  else
    match aBytes with
    | none => .error .NullBytes
    | some bs =>
      if strlenBytes bs = 0 then .error .EmptyBytes
      else if protectOk then
        .ok ({ Target := aTarget
               OriginalBytes := some (snapshotBytes mem aTarget (strlenBytes bs))
               Size := strlenBytes bs },
             copyBytes mem aTarget bs (strlenBytes bs))
      else
        .ok ({ Target := aTarget, OriginalBytes := none, Size := strlenBytes bs }, mem)

/-- `Patch::~Patch` (`src/memtools.h` lines 698-712): if the destructor's
`VirtualProtect` succeeds, `memcpy(this->Target, this->OriginalBytes,
this->Size)` restores the snapshot — reading through a null `OriginalBytes`
is undefined behaviour (`none`). -/
def Patch.release (rec : PatchRecord) (mem : Int → UInt8) (protectOk : Bool) :
    Option (Int → UInt8) :=
  if protectOk then
    match rec.OriginalBytes with
    | some obs => some (copyBytes mem rec.Target obs rec.Size)
    | none => none
  else some mem

/-! ## Helper lemmas: the interpreter -/

theorem PatternScan.run_push_cons (mem : Int → UInt8) (toks : PatternBytes)
    (matchStart : Int) (l : List Instruction) (cursor : Int) (stack : List Int) (offM : Int) :
    PatternScan.run mem toks matchStart (PushAddr :: l) cursor stack offM =
      PatternScan.run mem toks matchStart l cursor (cursor :: stack) offM := rfl

theorem PatternScan.run_pop_cons (mem : Int → UInt8) (toks : PatternBytes)
    (matchStart : Int) (l : List Instruction) (cursor a : Int) (stack : List Int) (offM : Int) :
    PatternScan.run mem toks matchStart (PopAddr :: l) cursor (a :: stack) offM =
      PatternScan.run mem toks matchStart l a stack offM := rfl

/-- `N` pushes followed by `N` pops (then anything) behave like the rest of
the sequence alone: cursor and stack are back where they started. -/
theorem PatternScan.run_push_pop_cancel (mem : Int → UInt8) (toks : PatternBytes)
    (matchStart : Int) :
    ∀ (n : Nat) (rest : List Instruction) (cursor : Int) (stack : List Int) (offM : Int),
      PatternScan.run mem toks matchStart
          (List.replicate n PushAddr ++ (List.replicate n PopAddr ++ rest)) cursor stack offM =
        PatternScan.run mem toks matchStart rest cursor stack offM := by
  intro n
  induction n with
  | zero => intro rest cursor stack offM; rfl
  | succ n ih =>
    intro rest cursor stack offM
    rw [List.replicate_succ, List.replicate_succ' (n := n) (a := PopAddr)]
    simp only [List.cons_append, List.append_assoc, List.singleton_append]
    rw [PatternScan.run_push_cons, List.nil_append]
    rw [ih (PopAddr :: rest) cursor (cursor :: stack) offM, PatternScan.run_pop_cons]

theorem DataScan.runD_push_cons (mem : Int → UInt8) (l : List Instruction)
    (cursor : Int) (stack : List Int) :
    DataScan.run mem (PushAddr :: l) cursor stack =
      DataScan.run mem l cursor (cursor :: stack) := rfl

theorem DataScan.runD_pop_cons (mem : Int → UInt8) (l : List Instruction)
    (cursor a : Int) (stack : List Int) :
    DataScan.run mem (PopAddr :: l) cursor (a :: stack) =
      DataScan.run mem l a stack := rfl

/-- `DataScan` version of the push/pop cancellation. -/
theorem DataScan.runD_push_pop_cancel (mem : Int → UInt8) :
    ∀ (n : Nat) (rest : List Instruction) (cursor : Int) (stack : List Int),
      DataScan.run mem
          (List.replicate n PushAddr ++ (List.replicate n PopAddr ++ rest)) cursor stack =
        DataScan.run mem rest cursor stack := by
  intro n
  induction n with
  | zero => intro rest cursor stack; rfl
  | succ n ih =>
    intro rest cursor stack
    rw [List.replicate_succ, List.replicate_succ' (n := n) (a := PopAddr)]
    simp only [List.cons_append, List.append_assoc, List.singleton_append]
    rw [DataScan.runD_push_cons, List.nil_append]
    rw [ih (PopAddr :: rest) cursor (cursor :: stack), DataScan.runD_pop_cons]

/-- An all-default (`EOperation::NONE`) instruction tail is a no-op. -/
theorem PatternScan.run_replicate_none (mem : Int → UInt8) (toks : PatternBytes)
    (matchStart : Int) :
    ∀ (n : Nat) (cursor : Int) (stack : List Int) (offM : Int),
      PatternScan.run mem toks matchStart (List.replicate n ({} : Instruction))
          cursor stack offM = .success cursor := by
  intro n
  induction n with
  | zero => intro cursor stack offM; rfl
  | succ n ih =>
    intro cursor stack offM
    rw [List.replicate_succ]
    exact ih cursor stack offM

/-! ## C2: push/pop LIFO discipline, and pop on an empty stack -/

/-- C2 (corrected): within one verification attempt, `N` `PushAddress`
instructions followed by `N` `PopAddress` instructions restore the cursor to
its value before the first push (LIFO discipline), in both scan variants.
But executing `PopAddress` with an empty address stack is NOT an internal
verification failure: both interpreters call `std::vector::back()` /
`pop_back()` on an empty vector with no emptiness check, which is undefined
behaviour — distinct from the `failed` control signal that merely makes the
walk continue. -/
theorem push_pop_lifo_and_pop_empty_ub :
    (∀ (mem : Int → UInt8) (toks : PatternBytes) (matchStart : Int) (n : Nat)
        (cursor : Int) (stack : List Int) (offM : Int),
        PatternScan.run mem toks matchStart
            (List.replicate n PushAddr ++ List.replicate n PopAddr) cursor stack offM =
          .success cursor)
    ∧ (∀ (mem : Int → UInt8) (n : Nat) (cursor : Int) (stack : List Int),
        DataScan.run mem (List.replicate n PushAddr ++ List.replicate n PopAddr)
            cursor stack = .success cursor)
    ∧ (∀ (mem : Int → UInt8) (toks : PatternBytes) (matchStart cursor : Int) (offM : Int),
        PatternScan.run mem toks matchStart [PopAddr] cursor [] offM = .ub)
    ∧ (∀ (mem : Int → UInt8) (cursor : Int),
        DataScan.run mem [PopAddr] cursor [] = .ub) := by
  refine ⟨?_, ?_, ?_, ?_⟩
  · intro mem toks matchStart n cursor stack offM
    have h := PatternScan.run_push_pop_cancel mem toks matchStart n [] cursor stack offM
    rwa [List.append_nil] at h
  · intro mem n cursor stack
    have h := DataScan.runD_push_pop_cancel mem n [] cursor stack
    rwa [List.append_nil] at h
  · intro mem toks matchStart cursor offM; rfl
  · intro mem cursor; rfl

/-- C2 counterexample: at the concrete input — instruction sequence
`[PopAddr]`, empty address stack — the attempt does not end in the internal
verification-failure signal (which is what "the scan simply continues with
the next candidate" requires); it is undefined behaviour
(`std::vector::back` on an empty vector). -/
theorem pop_empty_not_internal_failure :
    DataScan.run (fun _ => 0) [PopAddr] 100 [] = .ub ∧
      DataScan.run (fun _ => 0) [PopAddr] 100 [] ≠ .failed := by
  exact ⟨rfl, by decide⟩

/-! ## C5: an empty instruction sequence -/

/-- C5: for a scan configuration whose instruction sequence is empty, a
verification attempt at any raw match address succeeds immediately with
cursor equal to that address.  For `PatternScan` the constructor leaves the
16-entry `std::array` filled with default (`NONE`) instructions, which the
interpreter skips; for `DataScan` the vector is empty.  At the orchestrator
level, the candidate loop then reports exactly the raw match address
`base + i`. -/
theorem empty_sequence_reports_raw_match :
    (∀ (mem : Int → UInt8) (toks : PatternBytes) (matchStart cursor : Int)
        (stack : List Int) (offM : Int),
        PatternScan.run mem toks matchStart (mkScanInstructions []) cursor stack offM =
          .success cursor)
    ∧ (∀ (mem : Int → UInt8) (cursor : Int) (stack : List Int),
        DataScan.run mem [] cursor stack = .success cursor)
    ∧ (∀ (mem : Int → UInt8) (toks : PatternBytes) (base : Int) (i : Nat)
        (offsets : List Nat),
        patternMatchesAt mem toks (base + (i : Int)) = true →
        PatternScan.scanOffsetsGo mem toks (mkScanInstructions []) base (i :: offsets) =
          .found (base + (i : Int))) := by
  refine ⟨?_, ?_, ?_⟩
  · intro mem toks matchStart cursor stack offM
    exact PatternScan.run_replicate_none mem toks matchStart 16 cursor stack offM
  · intro mem cursor stack; rfl
  · intro mem toks base i offsets h
    have hrun := PatternScan.run_replicate_none mem toks (base + (i : Int)) 16
      (base + (i : Int)) [] 0
    simp only [PatternScan.scanOffsetsGo, h, if_true]
    rw [show mkScanInstructions [] = List.replicate 16 ({} : Instruction) from rfl, hrun]

/-- Witness for C5 at a concrete match: a one-byte pattern matching at
offset 0 of a region based at 5, with no instructions, reports address 5. -/
theorem empty_sequence_reports_raw_match_witness :
    patternMatchesAt (fun _ => 0x90) [⟨false, 0x90⟩] ((5 : Int) + ((0 : Nat) : Int)) = true
    ∧ PatternScan.scanOffsetsGo (fun _ => 0x90) [⟨false, 0x90⟩] (mkScanInstructions [])
        5 [0] = .found ((5 : Int) + ((0 : Nat) : Int)) :=
  ⟨by decide,
   empty_sequence_reports_raw_match.2.2 (fun _ => 0x90) [⟨false, 0x90⟩] 5 0 [] (by decide)⟩

/-! ## C4: the wildcard-aware matcher -/

/-- The positive characterization of `operator==(const Pattern&, PBYTE)`. -/
theorem patternMatchesAt_true_iff (mem : Int → UInt8) (toks : PatternBytes) (addr : Int) :
    patternMatchesAt mem toks addr = true ↔
      ∀ i, i < toks.length →
        ((byteAt toks i).IsWildcard = true ∨ (byteAt toks i).Value = mem (addr + (i : Int))) := by
  simp [patternMatchesAt, List.all_eq_true, List.mem_range]

/-- C4: the matcher returns `false` iff some position `i < Size` holds a
concrete (non-wildcard) token whose value differs from the window byte at
`i`; wildcard positions never cause a mismatch.  In particular the compiled
pattern of `"1A 2B ?? 4D"` matches the windows `[1A 2B 00 4D]` and
`[1A 2B FF 4D]` and does not match `[1A 2B 00 4E]`. -/
theorem matcher_false_iff_concrete_mismatch :
    (∀ (mem : Int → UInt8) (toks : PatternBytes) (addr : Int),
        patternMatchesAt mem toks addr = false ↔
          ∃ i, i < toks.length ∧ (byteAt toks i).IsWildcard = false ∧
            (byteAt toks i).Value ≠ mem (addr + (i : Int)))
    ∧ Pattern.compile "1A 2B ?? 4D".data =
        .ok [⟨false, 0x1A⟩, ⟨false, 0x2B⟩, ⟨true, 0⟩, ⟨false, 0x4D⟩]
    ∧ patternMatchesAt (memOfList [0x1A, 0x2B, 0x00, 0x4D])
        [⟨false, 0x1A⟩, ⟨false, 0x2B⟩, ⟨true, 0⟩, ⟨false, 0x4D⟩] 0 = true
    ∧ patternMatchesAt (memOfList [0x1A, 0x2B, 0xFF, 0x4D])
        [⟨false, 0x1A⟩, ⟨false, 0x2B⟩, ⟨true, 0⟩, ⟨false, 0x4D⟩] 0 = true
    ∧ patternMatchesAt (memOfList [0x1A, 0x2B, 0x00, 0x4E])
        [⟨false, 0x1A⟩, ⟨false, 0x2B⟩, ⟨true, 0⟩, ⟨false, 0x4D⟩] 0 = false := by
  refine ⟨?_, by rfl, by rfl, by rfl, by rfl⟩
  intro mem toks addr
  rw [show (patternMatchesAt mem toks addr = false) ↔
        ¬(patternMatchesAt mem toks addr = true) by simp]
  rw [patternMatchesAt_true_iff]
  push_neg
  constructor
  · rintro ⟨i, hi, hcase⟩
    rcases hcase with ⟨hwc, hval⟩
    exact ⟨i, hi, by simpa using hwc, hval⟩
  · rintro ⟨i, hi, hwc, hval⟩
    exact ⟨i, hi, by simpa using hwc, hval⟩

/-! ## C1: region acceptance -/

/-- C1 counterexample: a committed read-only region large enough for a
4-byte pattern.  The spec's acceptance condition (protection one of
read-only, read-write, execute-read, execute-read-write) accepts it, but
`PatternScan::Scan` skips it: that scan's protection test is
`mbi.Protect == PAGE_EXECUTE_READ || mbi.Protect == PAGE_EXECUTE_READWRITE`
only. -/
theorem readonly_region_spec_accepts_code_skips :
    specRegionAccepted 4 ⟨0, 0x1000, 0x1000, PAGE_READONLY⟩ = true ∧
      PatternScan.regionAccepted 4 ⟨0, 0x1000, 0x1000, PAGE_READONLY⟩ = false := by
  exact ⟨by decide, by decide⟩

/-- C1 (corrected): in `PatternScan::Scan` a region is accepted iff it is
committed, at least pattern-sized, and its protection EQUALS execute-read
or execute-read-write (read-only and read-write regions are skipped despite
the "Skip pages without read permission" comment); in `DataScan::Scan` a
region is accepted iff it is committed, at least pattern-sized, and its
protection has at least one of the read-only / read-write / execute-read /
execute-read-write bits set.  In both variants a region failing its test is
skipped and never matched against. -/
theorem region_acceptance_characterized :
    (∀ (patSize : Nat) (r : MBI),
        PatternScan.regionAccepted patSize r = true ↔
          r.State = MEM_COMMIT ∧ patSize ≤ r.RegionSize ∧
            (r.Protect = PAGE_EXECUTE_READ ∨ r.Protect = PAGE_EXECUTE_READWRITE))
    ∧ (∀ (patSize : Nat) (r : MBI),
        DataScan.regionAccepted patSize r = true ↔
          r.State = MEM_COMMIT ∧ patSize ≤ r.RegionSize ∧
            (r.Protect &&& PAGE_READONLY = PAGE_READONLY ∨
             r.Protect &&& PAGE_READWRITE = PAGE_READWRITE ∨
             r.Protect &&& PAGE_EXECUTE_READ = PAGE_EXECUTE_READ ∨
             r.Protect &&& PAGE_EXECUTE_READWRITE = PAGE_EXECUTE_READWRITE))
    ∧ (∀ (mem : Int → UInt8) (toks : PatternBytes) (instrs : List Instruction)
        (r : MBI) (regions : List MBI),
        PatternScan.regionAccepted toks.length r = false →
        PatternScan.scanRegions mem toks instrs (r :: regions) =
          PatternScan.scanRegions mem toks instrs regions)
    ∧ (∀ (mem : Int → UInt8) (toks : PatternBytes) (instrs : List Instruction)
        (r : MBI) (regions : List MBI),
        DataScan.regionAccepted toks.length r = false →
        DataScan.scanRegions mem toks instrs (r :: regions) =
          DataScan.scanRegions mem toks instrs regions) := by
  refine ⟨?_, ?_, ?_, ?_⟩
  · intro patSize r
    simp only [PatternScan.regionAccepted, Bool.and_eq_true, decide_eq_true_eq, Nat.not_lt]
    tauto
  · intro patSize r
    simp only [DataScan.regionAccepted, Bool.and_eq_true, decide_eq_true_eq, Nat.not_lt]
    tauto
  · intro mem toks instrs r regions h
    by_cases h1 : toks.length > r.RegionSize
    · simp only [PatternScan.scanRegions, if_pos h1]
    by_cases h2 : r.State ≠ MEM_COMMIT
    · simp only [PatternScan.scanRegions, if_neg h1, if_pos h2]
    by_cases h3 : ¬(r.Protect = PAGE_EXECUTE_READ ∨ r.Protect = PAGE_EXECUTE_READWRITE)
    · simp only [PatternScan.scanRegions, if_neg h1, if_neg h2, if_pos h3]
    exfalso
    have : PatternScan.regionAccepted toks.length r = true := by
      simp only [PatternScan.regionAccepted, Bool.and_eq_true, decide_eq_true_eq]
      tauto
    rw [this] at h
    simp at h
  · intro mem toks instrs r regions h
    by_cases h1 : toks.length > r.RegionSize
    · simp only [DataScan.scanRegions, if_pos h1]
    by_cases h2 : r.State ≠ MEM_COMMIT
    · simp only [DataScan.scanRegions, if_neg h1, if_pos h2]
    by_cases h3 : ¬(r.Protect &&& PAGE_READONLY = PAGE_READONLY ∨
        r.Protect &&& PAGE_READWRITE = PAGE_READWRITE ∨
        r.Protect &&& PAGE_EXECUTE_READ = PAGE_EXECUTE_READ ∨
        r.Protect &&& PAGE_EXECUTE_READWRITE = PAGE_EXECUTE_READWRITE)
    · simp only [DataScan.scanRegions, if_neg h1, if_neg h2, if_pos h3]
    exfalso
    have : DataScan.regionAccepted toks.length r = true := by
      simp only [DataScan.regionAccepted, Bool.and_eq_true, decide_eq_true_eq]
      tauto
    rw [this] at h
    simp at h

/-- Witness for the C1 theorem at a concrete rejected region: a committed
read-only page is skipped by `PatternScan::Scan`'s walk. -/
theorem region_acceptance_characterized_witness :
    PatternScan.regionAccepted 1 ⟨0, 0x1000, 0x1000, PAGE_READONLY⟩ = false ∧
      PatternScan.scanRegions (fun _ => 0) [⟨false, 0x90⟩] []
          [⟨0, 0x1000, 0x1000, PAGE_READONLY⟩] =
        PatternScan.scanRegions (fun _ => 0) [⟨false, 0x90⟩] [] [] :=
  ⟨by decide,
   region_acceptance_characterized.2.2.1 (fun _ => 0) [⟨false, 0x90⟩] []
     ⟨0, 0x1000, 0x1000, PAGE_READONLY⟩ [] (by decide)⟩

/-! ## C10: candidate offsets within an accepted region -/

theorem PatternScan.scanOffsetsGo_all_unmatched (mem : Int → UInt8) (toks : PatternBytes)
    (instrs : List Instruction) (base : Int) :
    ∀ (offsets : List Nat),
      (∀ i ∈ offsets, patternMatchesAt mem toks (base + (i : Int)) = false) →
      PatternScan.scanOffsetsGo mem toks instrs base offsets = .notFound := by
  intro offsets
  induction offsets with
  | nil => intro _; rfl
  | cons i offsets ih =>
    intro h
    have hi := h i (List.mem_cons_self i offsets)
    simp only [PatternScan.scanOffsetsGo, hi, Bool.false_eq_true, if_false]
    exact ih fun j hj => h j (List.mem_cons_of_mem i hj)

theorem DataScan.scanOffsetsGoD_all_unmatched (mem : Int → UInt8) (toks : PatternBytes)
    (instrs : List Instruction) (base : Int) :
    ∀ (offsets : List Nat),
      (∀ i ∈ offsets, patternMatchesAt mem toks (base + (i : Int)) = false) →
      DataScan.scanOffsetsGo mem toks instrs base offsets = .notFound := by
  intro offsets
  induction offsets with
  | nil => intro _; rfl
  | cons i offsets ih =>
    intro h
    have hi := h i (List.mem_cons_self i offsets)
    simp only [DataScan.scanOffsetsGo, hi, Bool.false_eq_true, if_false]
    exact ih fun j hj => h j (List.mem_cons_of_mem i hj)

/-- C10: within an accepted region, both scans test exactly the offsets
`0 .. RegionSize - PatternSize - 1` (`end = RegionSize - Size`, loop
`i < end`).  If the pattern matches at no offset strictly below
`RegionSize - PatternSize`, the region yields nothing — even when the final
in-bounds window, at offset `RegionSize - PatternSize`, does match. -/
theorem final_window_never_tested :
    (∀ (mem : Int → UInt8) (toks : PatternBytes) (instrs : List Instruction)
        (base : Int) (regionSize : Nat),
        (∀ i, i < regionSize - toks.length →
          patternMatchesAt mem toks (base + (i : Int)) = false) →
        PatternScan.scanRegion mem toks instrs base regionSize = .notFound)
    ∧ (∀ (mem : Int → UInt8) (toks : PatternBytes) (instrs : List Instruction)
        (base : Int) (regionSize : Nat),
        (∀ i, i < regionSize - toks.length →
          patternMatchesAt mem toks (base + (i : Int)) = false) →
        DataScan.scanRegion mem toks instrs base regionSize = .notFound) := by
  constructor
  · intro mem toks instrs base regionSize h
    exact PatternScan.scanOffsetsGo_all_unmatched mem toks instrs base _
      fun i hi => h i (List.mem_range.mp hi)
  · intro mem toks instrs base regionSize h
    exact DataScan.scanOffsetsGoD_all_unmatched mem toks instrs base _
      fun i hi => h i (List.mem_range.mp hi)

/-- Witness for C10 at a concrete region: the byte `4D` sits only in the
final in-bounds window (offset 3 of a 4-byte region, pattern size 1); the
tested offsets are 0,1,2, so the scan of that region reports nothing. -/
theorem final_window_never_tested_witness :
    (∀ i, i < 4 - ([⟨false, 0x4D⟩] : PatternBytes).length →
        patternMatchesAt (fun a => if a = 3 then 0x4D else 0) [⟨false, 0x4D⟩]
          ((0 : Int) + (i : Int)) = false)
    ∧ patternMatchesAt (fun a => if a = 3 then 0x4D else 0) [⟨false, 0x4D⟩]
        ((0 : Int) + ((3 : Nat) : Int)) = true
    ∧ DataScan.scanRegion (fun a => if a = 3 then 0x4D else 0) [⟨false, 0x4D⟩] [] 0 4 =
        .notFound := by
  refine ⟨?_, by decide, ?_⟩
  · decide
  · exact final_window_never_tested.2 (fun a => if a = 3 then 0x4D else 0)
      [⟨false, 0x4D⟩] [] 0 4 (by decide)

/-! ## Helper lemmas: the pattern compiler -/

/-- A hex digit is none of the characters the parser treats specially. -/
theorem isHexU_not_special {c : Char} (h : isHexU c = true) :
    c ≠ ' ' ∧ c ≠ '<' ∧ c ≠ '>' ∧ c ≠ '?' := by
  refine ⟨?_, ?_, ?_, ?_⟩ <;> rintro rfl <;> revert h <;> decide

theorem parseLoop_nil (acc : PatternBytes) : parseLoop [] acc = .ok acc := rfl

theorem Pattern.compile_def (text : List Char) :
    Pattern.compile text = parseLoop text [] := rfl

theorem isOk_ok (a : PatternBytes) : (Except.ok (ε := ParseError) a).isOk = true := rfl

theorem isOk_error (e : ParseError) :
    (Except.error (α := PatternBytes) e).isOk = false := rfl

theorem validChar_cases {c : Char} (h : validChar c = true) :
    c = ' ' ∨ c = '<' ∨ c = '>' ∨ c = '?' ∨ isHexU c = true := by
  have h2 : (((c = ' ' ∨ c = '<') ∨ c = '>') ∨ c = '?') ∨ isHexU c = true := by
    simpa [validChar] using h
  tauto

theorem not_validChar_elim {c : Char} (h : ¬validChar c = true) :
    c ≠ ' ' ∧ c ≠ '<' ∧ c ≠ '>' ∧ c ≠ '?' ∧ ¬isHexU c = true := by
  refine ⟨?_, ?_, ?_, ?_, ?_⟩
  · rintro rfl; exact h (by decide)
  · rintro rfl; exact h (by decide)
  · rintro rfl; exact h (by decide)
  · rintro rfl; exact h (by decide)
  · intro hh; exact h (by simp [validChar, hh])

/-- Once `Size` has reached capacity, the rest of the text is ignored:
the loop `break`s and the pattern built so far is returned, whatever
characters (valid or not) remain. -/
theorem parseLoop_at_capacity :
    ∀ (text : List Char) (acc : PatternBytes),
      MAX_PATTERN_LENGTH ≤ acc.length → parseLoop text acc = .ok acc := by
  intro text acc h
  match text with
  | [] => rfl
  | [c] => simp [parseLoop, h]
  | c :: d :: rest => simp [parseLoop, h]

/-- Fuel-indexed length invariant of the parsing loop: tokens are only ever
appended below capacity, so an `ok` result never exceeds it. -/
theorem parseLoop_ok_length_le :
    ∀ (fuel : Nat) (text : List Char) (acc pat : PatternBytes),
      text.length ≤ fuel → acc.length ≤ MAX_PATTERN_LENGTH →
      parseLoop text acc = .ok pat → pat.length ≤ MAX_PATTERN_LENGTH := by
  intro fuel
  induction fuel with
  | zero =>
    intro text acc pat hf hacc h
    match text with
    | [] =>
      have h2 : Except.ok (ε := ParseError) acc = .ok pat := h
      injection h2 with h3
      subst h3; exact hacc
    | c :: rest => simp at hf
  | succ n ih =>
    intro text acc pat hf hacc h
    match text with
    | [] =>
      have h2 : Except.ok (ε := ParseError) acc = .ok pat := h
      injection h2 with h3
      subst h3; exact hacc
    | [c] =>
      simp only [parseLoop] at h
      split_ifs at h with h1 h2 h3 h4 h5 h6
      · injection h with h9; subst h9; exact hacc
      · exact ih [] acc pat (by simp) hacc h
      · exact ih [] acc pat (by simp) hacc h
      · exact ih [] acc pat (by simp) hacc h
      · exact ih [] _ pat (by simp) (by simp; omega) h
      · exact ih [] _ pat (by simp) (by simp; omega) h
    | c :: d :: rest =>
      have hlen1 : (d :: rest).length ≤ n := by simp at hf ⊢; omega
      have hlen2 : rest.length ≤ n := by simp at hf; omega
      simp only [parseLoop] at h
      split_ifs at h with h1 h2 h3 h4 h5 h6 h7 h8
      · injection h with h9; subst h9; exact hacc
      · exact ih (d :: rest) acc pat hlen1 hacc h
      · exact ih (d :: rest) acc pat hlen1 hacc h
      · exact ih (d :: rest) acc pat hlen1 hacc h
      · exact ih rest _ pat hlen2 (by simp; omega) h
      · exact ih (d :: rest) _ pat hlen1 (by simp; omega) h
      · exact ih rest _ pat hlen2 (by simp; omega) h
      · exact ih (d :: rest) _ pat hlen1 (by simp; omega) h

/-- Fuel-indexed success characterization: as long as capacity cannot be hit
mid-text (`acc.length + text.length ≤ MAX_PATTERN_LENGTH`), the loop
succeeds exactly when every character is one the grammar consumes or
skips. -/
theorem parseLoop_isOk_iff :
    ∀ (fuel : Nat) (text : List Char) (acc : PatternBytes),
      text.length ≤ fuel → acc.length + text.length ≤ MAX_PATTERN_LENGTH →
      ((parseLoop text acc).isOk = true ↔ ∀ c ∈ text, validChar c = true) := by
  intro fuel
  induction fuel with
  | zero =>
    intro text acc hf hlen
    match text with
    | [] => simp [parseLoop_nil, isOk_ok]
    | c :: rest => simp at hf
  | succ n ih =>
    intro text acc hf hlen
    match text with
    | [] => simp [parseLoop_nil, isOk_ok]
    | [c] =>
      have hcap : ¬(MAX_PATTERN_LENGTH ≤ acc.length) := by simp at hlen; omega
      by_cases hv : validChar c = true
      · rcases validChar_cases hv with hc | hc | hc | hc | hc
        · subst hc
          rw [show parseLoop [' '] acc =
              if MAX_PATTERN_LENGTH ≤ acc.length then Except.ok acc
              else parseLoop [] acc from rfl, if_neg hcap]
          simp [parseLoop_nil, isOk_ok, validChar]
        · subst hc
          rw [show parseLoop ['<'] acc =
              if MAX_PATTERN_LENGTH ≤ acc.length then Except.ok acc
              else parseLoop [] acc from rfl, if_neg hcap]
          simp [parseLoop_nil, isOk_ok, validChar]
        · subst hc
          rw [show parseLoop ['>'] acc =
              if MAX_PATTERN_LENGTH ≤ acc.length then Except.ok acc
              else parseLoop [] acc from rfl, if_neg hcap]
          simp [parseLoop_nil, isOk_ok, validChar]
        · subst hc
          rw [show parseLoop ['?'] acc =
              if MAX_PATTERN_LENGTH ≤ acc.length then Except.ok acc
              else parseLoop [] (acc ++ [{ IsWildcard := true }]) from rfl, if_neg hcap]
          simp [parseLoop_nil, isOk_ok, validChar]
        · have hne := isHexU_not_special hc
          simp only [parseLoop, if_neg hcap, if_neg hne.1, if_neg hne.2.1, if_neg hne.2.2.1,
            if_neg hne.2.2.2, if_pos hc]
          simp [parseLoop_nil, isOk_ok, validChar, hc]
      · obtain ⟨h1, h2, h3, h4, h5⟩ := not_validChar_elim hv
        simp only [parseLoop, if_neg hcap, if_neg h1, if_neg h2, if_neg h3, if_neg h4,
          if_neg h5]
        constructor
        · intro habs; rw [isOk_error] at habs; exact absurd habs (by decide)
        · intro hall; exact absurd (hall c (by simp)) hv
    | c :: d :: rest =>
      have hcap : ¬(MAX_PATTERN_LENGTH ≤ acc.length) := by simp at hlen; omega
      have hf1 : (d :: rest).length ≤ n := by simp at hf ⊢; omega
      have hf2 : rest.length ≤ n := by simp at hf; omega
      by_cases hv : validChar c = true
      · rcases validChar_cases hv with hc | hc | hc | hc | hc
        · subst hc
          rw [show parseLoop (' ' :: d :: rest) acc =
              if MAX_PATTERN_LENGTH ≤ acc.length then Except.ok acc
              else parseLoop (d :: rest) acc from rfl, if_neg hcap]
          rw [ih (d :: rest) acc hf1 (by simp at hlen ⊢; omega)]
          have hvc : validChar ' ' = true := by decide
          simp [List.forall_mem_cons, hvc]
        · subst hc
          rw [show parseLoop ('<' :: d :: rest) acc =
              if MAX_PATTERN_LENGTH ≤ acc.length then Except.ok acc
              else parseLoop (d :: rest) acc from rfl, if_neg hcap]
          rw [ih (d :: rest) acc hf1 (by simp at hlen ⊢; omega)]
          have hvc : validChar '<' = true := by decide
          simp [List.forall_mem_cons, hvc]
        · subst hc
          rw [show parseLoop ('>' :: d :: rest) acc =
              if MAX_PATTERN_LENGTH ≤ acc.length then Except.ok acc
              else parseLoop (d :: rest) acc from rfl, if_neg hcap]
          rw [ih (d :: rest) acc hf1 (by simp at hlen ⊢; omega)]
          have hvc : validChar '>' = true := by decide
          simp [List.forall_mem_cons, hvc]
        · subst hc
          rw [show parseLoop ('?' :: d :: rest) acc =
              if MAX_PATTERN_LENGTH ≤ acc.length then Except.ok acc
              else if d = '?' then parseLoop rest (acc ++ [{ IsWildcard := true }])
              else parseLoop (d :: rest) (acc ++ [{ IsWildcard := true }]) from rfl,
            if_neg hcap]
          have hvc : validChar '?' = true := by decide
          by_cases hd : d = '?'
          · subst hd
            rw [if_pos rfl, ih rest _ hf2 (by simp at hlen ⊢; omega)]
            simp [List.forall_mem_cons, hvc]
          · rw [if_neg hd, ih (d :: rest) _ hf1 (by simp at hlen ⊢; omega)]
            simp [List.forall_mem_cons, hvc]
        · have hne := isHexU_not_special hc
          have hvc : validChar c = true := hv
          simp only [parseLoop, if_neg hcap, if_neg hne.1, if_neg hne.2.1, if_neg hne.2.2.1,
            if_neg hne.2.2.2, if_pos hc]
          by_cases hd : isHexU d = true
          · have hvd : validChar d = true := by simp [validChar, hd]
            rw [if_pos hd, ih rest _ hf2 (by simp at hlen ⊢; omega)]
            simp [List.forall_mem_cons, hvc, hvd]
          · rw [if_neg hd, ih (d :: rest) _ hf1 (by simp at hlen ⊢; omega)]
            simp [List.forall_mem_cons, hvc]
      · obtain ⟨h1, h2, h3, h4, h5⟩ := not_validChar_elim hv
        simp only [parseLoop, if_neg hcap, if_neg h1, if_neg h2, if_neg h3, if_neg h4,
          if_neg h5]
        constructor
        · intro habs; rw [isOk_error] at habs; exact absurd habs (by decide)
        · intro hall; exact absurd (hall c (by simp)) hv

/-! ## C6: hex-pair and lone-digit compilation -/

/-- C6: below capacity, two adjacent uppercase hex digits compile to one
byte of value `high*16 + low`; a lone hex digit not immediately followed by
another hex digit compiles — without error — to a single byte of value
`digit*1` (zero-extended), whether it is the last character of the text or
is followed by a non-hex character. -/
theorem hex_pair_and_lone_digit_compilation :
    (∀ (c d : Char) (rest : List Char) (acc : PatternBytes),
        isHexU c = true → isHexU d = true → acc.length < MAX_PATTERN_LENGTH →
        parseLoop (c :: d :: rest) acc =
          parseLoop rest
            (acc ++ [{ IsWildcard := false, Value := UInt8.ofNat (hexVal c * 16 + hexVal d) }]))
    ∧ (∀ (c : Char) (acc : PatternBytes),
        isHexU c = true → acc.length < MAX_PATTERN_LENGTH →
        parseLoop [c] acc =
          .ok (acc ++ [{ IsWildcard := false, Value := UInt8.ofNat (hexVal c) }]))
    ∧ (∀ (c d : Char) (rest : List Char) (acc : PatternBytes),
        isHexU c = true → isHexU d = false → acc.length < MAX_PATTERN_LENGTH →
        parseLoop (c :: d :: rest) acc =
          parseLoop (d :: rest)
            (acc ++ [{ IsWildcard := false, Value := UInt8.ofNat (hexVal c) }])) := by
  refine ⟨?_, ?_, ?_⟩
  · intro c d rest acc hc hd hlen
    have hne := isHexU_not_special hc
    simp only [parseLoop, if_neg (by omega : ¬MAX_PATTERN_LENGTH ≤ acc.length), if_neg hne.1,
      if_neg hne.2.1, if_neg hne.2.2.1, if_neg hne.2.2.2, if_pos hc, if_pos hd]
    norm_num [HEXPOW_1, HEXPOW_2]
  · intro c acc hc hlen
    have hne := isHexU_not_special hc
    simp only [parseLoop, if_neg (by omega : ¬MAX_PATTERN_LENGTH ≤ acc.length), if_neg hne.1,
      if_neg hne.2.1, if_neg hne.2.2.1, if_neg hne.2.2.2, if_pos hc]
    norm_num [HEXPOW_1]
  · intro c d rest acc hc hd hlen
    have hne := isHexU_not_special hc
    simp only [parseLoop, if_neg (by omega : ¬MAX_PATTERN_LENGTH ≤ acc.length), if_neg hne.1,
      if_neg hne.2.1, if_neg hne.2.2.1, if_neg hne.2.2.2, if_pos hc,
      if_neg (by simp [hd] : ¬isHexU d = true)]
    norm_num [HEXPOW_1]

/-- Witness for C6 at concrete digits: `"1A"` gives the byte `0x1A`
(`1*16 + 10 = 26`), the lone trailing `"1"` gives the byte `0x01`, and a
lone `'1'` before a space gives `0x01` with the space still to process. -/
theorem hex_pair_and_lone_digit_compilation_witness :
    parseLoop ['1', 'A'] [] =
        parseLoop [] [{ IsWildcard := false, Value := 26 }]
    ∧ parseLoop ['1'] [] = .ok [{ IsWildcard := false, Value := 1 }]
    ∧ parseLoop ['1', ' ', '2'] [] =
        parseLoop [' ', '2'] [{ IsWildcard := false, Value := 1 }] := by
  refine ⟨?_, ?_, ?_⟩
  · have h := hex_pair_and_lone_digit_compilation.1 '1' 'A' [] [] (by decide) (by decide)
      (by decide)
    simpa using h
  · have h := hex_pair_and_lone_digit_compilation.2.1 '1' [] (by decide) (by decide)
    simpa using h
  · have h := hex_pair_and_lone_digit_compilation.2.2 '1' ' ' ['2'] [] (by decide) (by decide)
      (by decide)
    simpa using h

/-! ## C8: size bound and silent truncation at capacity -/

/-- C8: every successfully compiled pattern has `Size ≤ MAX_PATTERN_LENGTH`,
and once `Size` has reached that capacity the loop stops and silently
ignores all remaining characters — no error, no further tokens. -/
theorem compiled_size_bounded_and_capacity_truncates :
    (∀ (text : List Char) (pat : PatternBytes),
        Pattern.compile text = .ok pat → pat.length ≤ MAX_PATTERN_LENGTH)
    ∧ (∀ (text : List Char) (acc : PatternBytes),
        MAX_PATTERN_LENGTH ≤ acc.length → parseLoop text acc = .ok acc) := by
  constructor
  · intro text pat h
    exact parseLoop_ok_length_le text.length text [] pat (Nat.le_refl _) (by simp) h
  · exact parseLoop_at_capacity

/-- Witness for C8: a two-hex-digit text compiles within the bound, and a
full accumulator makes the loop return it untouched even on text (`"zz"`)
whose characters would otherwise be parse errors. -/
theorem compiled_size_bounded_witness :
    ([({ IsWildcard := false, Value := 26 } : Byte)].length ≤ MAX_PATTERN_LENGTH)
    ∧ parseLoop ['z', 'z'] (List.replicate 128 ({ IsWildcard := true } : Byte)) =
        .ok (List.replicate 128 ({ IsWildcard := true } : Byte)) :=
  ⟨compiled_size_bounded_and_capacity_truncates.1 ['1', 'A'] _ (by rfl),
   compiled_size_bounded_and_capacity_truncates.2 ['z', 'z'] _ (by simp [MAX_PATTERN_LENGTH])⟩

/-! ## C7: the accepted character set -/

/-- C7 counterexample: a tab character is whitespace, but compilation of a
pattern text containing it throws `"Invalid hexadecimal."` instead of
skipping it — only the space character (and `<`, `>`) is skipped. -/
theorem tab_whitespace_not_skipped :
    ('\t').isWhitespace = true ∧
      Pattern.compile ['\t'] = .error .invalidCharacter := by
  exact ⟨by decide, by rfl⟩

/-- C7 (corrected): for pattern text that fits the capacity, the space
character (not all whitespace: a tab is rejected) and the literal `<`/`>`
markers are skipped, `?`/`??` compile to one wildcard each, one or two
uppercase hex digits compile to a byte token, and any other character —
lowercase hex digits, tabs, punctuation — fails compilation with the
invalid-character parse error, so no `Pattern` is constructed.  (Past
capacity, remaining characters are instead ignored — see the capacity
claim.) -/
theorem compile_accepts_exactly_valid_chars :
    ∀ (text : List Char), text.length ≤ MAX_PATTERN_LENGTH →
      (((Pattern.compile text).isOk = true ↔ ∀ c ∈ text, validChar c = true)
       ∧ (Pattern.compile text = .error .invalidCharacter ↔
            ∃ c ∈ text, validChar c = false)) := by
  intro text hlen
  have hiff := parseLoop_isOk_iff text.length text [] (Nat.le_refl _) (by simpa using hlen)
  constructor
  · exact hiff
  · cases hres : Pattern.compile text with
    | ok p =>
      rw [Pattern.compile_def] at hres
      constructor
      · intro h; simp at h
      · rintro ⟨c, hc, hval⟩
        have : (parseLoop text []).isOk = true := by rw [hres]; rfl
        have := hiff.mp this c hc
        rw [hval] at this
        simp at this
    | error e =>
      cases e
      rw [Pattern.compile_def] at hres
      constructor
      · intro _
        have hnok : ¬((parseLoop text []).isOk = true) := by rw [hres, isOk_error]; decide
        have := (not_iff_not.mpr hiff).mp hnok
        push_neg at this
        obtain ⟨c, hc, hval⟩ := this
        exact ⟨c, hc, by simpa using hval⟩
      · intro _; rfl

/-- Witness for C7: lowercase hex (`"1a"`) is rejected with the parse
error. -/
theorem compile_accepts_exactly_valid_chars_witness :
    (['1', 'a'].length ≤ MAX_PATTERN_LENGTH) ∧
      Pattern.compile ['1', 'a'] = .error .invalidCharacter :=
  ⟨by decide,
   (compile_accepts_exactly_valid_chars ['1', 'a'] (by decide)).2.mpr
     ⟨'a', by decide, by decide⟩⟩

/-! ## Helper lemmas: the patch -/

theorem snapshotBytes_getD (mem : Int → UInt8) (t : Int) (n k : Nat) (h : k < n) :
    (snapshotBytes mem t n).getD k 0 = mem (t + (k : Int)) := by
  rw [snapshotBytes, List.getD_eq_getElem?_getD, List.getElem?_map, List.getElem?_range h]
  rfl

theorem snapshotBytes_length (mem : Int → UInt8) (t : Int) (n : Nat) :
    (snapshotBytes mem t n).length = n := by
  simp [snapshotBytes]

/-! ## C3: apply-then-release restores the original bytes -/

/-- C3: for every successful `Patch` apply (non-null target, non-empty
bytes, protection change succeeded), the record snapshots exactly the
pre-apply bytes of the target range; `release` writes back exactly that
snapshot — as a pure function of the record, whatever the memory contents
at release time, so never re-read or re-derived — and applying then
releasing leaves every byte of memory, in the patched range and outside it,
bit-identical to its pre-apply state. -/
theorem patch_apply_release_roundtrip :
    ∀ (mem : Int → UInt8) (t : Int) (bs : List UInt8) (rec : PatchRecord)
      (mem1 : Int → UInt8),
      Patch.construct mem t (some bs) true = .ok (rec, mem1) →
      rec.OriginalBytes = some (snapshotBytes mem t rec.Size)
      ∧ (∀ memMid : Int → UInt8,
          Patch.release rec memMid true =
            some (copyBytes memMid t (snapshotBytes mem t rec.Size) rec.Size))
      ∧ (∀ mem2 : Int → UInt8, Patch.release rec mem1 true = some mem2 →
          ∀ a : Int, mem2 a = mem a) := by
  intro mem t bs rec mem1 h
  by_cases ht : t = 0
  · simp [Patch.construct, ht] at h
  by_cases hsz : strlenBytes bs = 0
  · simp [Patch.construct, ht, hsz] at h
  have hcon : Patch.construct mem t (some bs) true =
      .ok ({ Target := t, OriginalBytes := some (snapshotBytes mem t (strlenBytes bs)),
             Size := strlenBytes bs }, copyBytes mem t bs (strlenBytes bs)) := by
    simp [Patch.construct, ht, hsz]
  rw [hcon] at h
  injection h with h4
  injection h4 with hrec hmem1
  subst hrec
  refine ⟨rfl, fun memMid => rfl, ?_⟩
  intro mem2 hrel a
  have hrel2 : some (copyBytes mem1 t (snapshotBytes mem t (strlenBytes bs))
      (strlenBytes bs)) = some mem2 := hrel
  injection hrel2 with hrel3
  rw [← hrel3]
  by_cases hin : t ≤ a ∧ a < t + ((strlenBytes bs : Nat) : Int)
  · have hnn : (0 : Int) ≤ a - t := by omega
    have hk : (a - t).toNat < strlenBytes bs := by omega
    simp only [copyBytes, if_pos hin]
    rw [snapshotBytes_getD mem t _ _ hk]
    congr 1
    rw [Int.toNat_of_nonneg hnn]
    omega
  · simp only [copyBytes, if_neg hin]
    rw [← hmem1]
    simp only [copyBytes, if_neg hin]

/-- Witness for C3 at a concrete memory, target and patch bytes
(`"\xC8"`): the original byte 7 is captured, the patched byte is `0xC8`,
and release restores byte 7. -/
theorem patch_apply_release_roundtrip_witness :
    Patch.construct (fun _ => (7 : UInt8)) 100 (some [0xC8, 0]) true =
      .ok ({ Target := 100, OriginalBytes := some [7], Size := 1 },
        copyBytes (fun _ => (7 : UInt8)) 100 [0xC8, 0] 1)
    ∧ copyBytes (fun _ => (7 : UInt8)) 100 [0xC8, 0] 1 100 = 0xC8
    ∧ copyBytes (copyBytes (fun _ => (7 : UInt8)) 100 [0xC8, 0] 1) 100 [7] 1 100 = 7 := by
  have h := patch_apply_release_roundtrip (fun _ => (7 : UInt8)) 100 [0xC8, 0]
    { Target := 100, OriginalBytes := some [7], Size := 1 }
    (copyBytes (fun _ => (7 : UInt8)) 100 [0xC8, 0] 1) rfl
  refine ⟨rfl, by decide, ?_⟩
  exact h.2.2 (copyBytes (copyBytes (fun _ => (7 : UInt8)) 100 [0xC8, 0] 1) 100 [7] 1)
    (h.2.1 _) 100

/-! ## C9: the patched byte count is a C-string length -/

/-- C9: for a `Patch` constructed with a non-null target and non-null bytes,
the patched byte count is the number of bytes before the first zero byte of
the supplied data (`strlen`); when the protection change succeeds, the bytes
written are that zero-free prefix, so a `Patch` never writes a zero byte;
and data whose bytes are all zero is rejected as `EmptyBytes`. -/
theorem patch_size_is_cstring_length :
    ∀ (mem : Int → UInt8) (t : Int) (bs : List UInt8), t ≠ 0 →
      ((∀ (rec : PatchRecord) (mem1 : Int → UInt8),
          Patch.construct mem t (some bs) true = .ok (rec, mem1) →
          rec.Size = (bs.takeWhile (· ≠ 0)).length
          ∧ ∀ a : Int, t ≤ a → a < t + (rec.Size : Int) → mem1 a ≠ 0)
       ∧ ((∀ b ∈ bs, b = 0) → Patch.construct mem t (some bs) true = .error .EmptyBytes)) := by
  intro mem t bs ht
  constructor
  · intro rec mem1 h
    by_cases hsz : strlenBytes bs = 0
    · simp [Patch.construct, ht, hsz] at h
    have hcon : Patch.construct mem t (some bs) true =
        .ok ({ Target := t, OriginalBytes := some (snapshotBytes mem t (strlenBytes bs)),
               Size := strlenBytes bs }, copyBytes mem t bs (strlenBytes bs)) := by
      simp [Patch.construct, ht, hsz]
    rw [hcon] at h
    injection h with h4
    injection h4 with hrec hmem1
    subst hrec
    refine ⟨rfl, ?_⟩
    intro a ha1 ha2
    rw [← hmem1]
    have hin : t ≤ a ∧ a < t + ((strlenBytes bs : Nat) : Int) := ⟨ha1, ha2⟩
    simp only [copyBytes, if_pos hin]
    have hnn : (0 : Int) ≤ a - t := by omega
    have hk : (a - t).toNat < strlenBytes bs := by
      have := hin.2
      omega
    have hkb : (a - t).toNat < bs.length :=
      Nat.lt_of_lt_of_le hk ((List.takeWhile_prefix _).length_le)
    rw [List.getD_eq_getElem?_getD, List.getElem?_eq_getElem hkb]
    have hpref : bs.takeWhile (· ≠ 0) <+: bs := List.takeWhile_prefix _
    simp only [Option.getD_some]
    rw [← List.IsPrefix.getElem hpref hk]
    have hmem := List.getElem_mem hk
    have hp := List.mem_takeWhile_imp hmem
    simpa using hp
  · intro hall
    have hsz : strlenBytes bs = 0 := by
      cases bs with
      | nil => rfl
      | cons b rest =>
        have hb := hall b (List.mem_cons_self b rest)
        subst hb
        simp [strlenBytes, List.takeWhile_cons]
    simp [Patch.construct, ht, hsz]

/-- Witness for C9: a target at 100 with data `[C8 00]` (count 1) and with
all-zero data `[00 00]` (rejected). -/
theorem patch_size_is_cstring_length_witness :
    (([0xC8, 0] : List UInt8).takeWhile (· ≠ 0)).length = 1
    ∧ Patch.construct (fun _ => (7 : UInt8)) 100 (some [0, 0]) true = .error .EmptyBytes := by
  constructor
  · decide
  · exact (patch_size_is_cstring_length (fun _ => (7 : UInt8)) 100 [0, 0] (by decide)).2
      (by decide)

end memtools
